import Mathlib

/-!
Verification development for the session-transcript processor
(`chat-parser`, Go source): a shallow embedding of its data model and
operations, together with theorems settling the specification claims.

Modelling conventions:
* Go strings are modelled as `List Char` (`Str`); Go's `len` (bytes) is
  modelled as character count, which coincides on ASCII data.
* The two external JSON library entry points that the code calls are taken
  as explicit function parameters: `u : Str → Option Message` models
  `json.Unmarshal` into the `Message` struct (`none` = parse error), and
  `ua : Str → Option JVal` models `json.Unmarshal` into `interface{}`.
  `gp : Str → Str` models the re-prettification sequence applied to a
  tool-result text (`json.Valid` / `Unmarshal` / `MarshalIndent`, which
  leaves any string that is not valid JSON unchanged).
* `json.Marshal` / `json.MarshalIndent` on already-decoded values are
  modelled concretely on the decoded-value type `JVal`; object fields are
  serialized in list order (Go sorts decoded map keys, so single-key
  objects used in concrete inputs are exact).
-/

set_option autoImplicit false
set_option maxRecDepth 16000

namespace ChatParser

/-- Go strings, modelled as lists of characters. -/
abbrev Str := List Char

/-- String literal to `Str` conversion. -/
def str (s : String) : Str := s.data

/-- `unicode.IsSpace`, the predicate used by `strings.TrimSpace`. -/
def goIsSpace (c : Char) : Bool :=
  c = ' ' || c = '\t' || c = '\n' || c = '\x0b' || c = '\x0c' || c = '\r' ||
  c = '\x85' || c = '\xa0' || c.val = 0x1680 ||
  (0x2000 ≤ c.val && c.val ≤ 0x200a) ||
  c.val = 0x2028 || c.val = 0x2029 || c.val = 0x202f || c.val = 0x205f ||
  c.val = 0x3000

/-- `strings.TrimSpace`. -/
def trimSpace (s : Str) : Str :=
  ((s.dropWhile goIsSpace).reverse.dropWhile goIsSpace).reverse

/-- `strings.HasPrefix(s, "{")`. -/
def startsWithBrace : Str → Bool
  | [] => false
  | c :: _ => c = '\x7b'

/-- `strings.Split(s, "\n")`.  `Split "" = [""]`, matching Go. -/
def splitNl : Str → List Str
  | [] => [[]]
  | c :: s =>
    match splitNl s with
    | [] => [[]]
    | p :: ps => if c = '\n' then [] :: p :: ps else (c :: p) :: ps

/-- `strings.Join(parts, "\n")`. -/
def joinNl : List Str → Str
  | [] => []
  | [p] => p
  | p :: q :: ps => p ++ '\n' :: joinNl (q :: ps)

/-- `strings.Join(parts, sep)`. -/
def joinSep (sep : Str) : List Str → Str
  | [] => []
  | [p] => p
  | p :: q :: ps => p ++ sep ++ joinSep sep (q :: ps)

/-- Is `p` a prefix of `s` (Boolean, for concrete evaluation). -/
def hasPfx : Str → Str → Bool
  | _, [] => true
  | [], _ :: _ => false
  | c :: s, p :: ps => c == p && hasPfx s ps

/-- Is `p` a contiguous substring of `s` (Boolean, for concrete evaluation). -/
def hasSub : Str → Str → Bool
  | s, p =>
    if hasPfx s p then true
    else
      match s with
      | [] => false
      | _ :: s' => hasSub s' p

/-! ### Progressive disclosure formatter

Source lines 182–216 (tool-use inputs, character threshold 300) and
263–299 (tool-result contents, character threshold 400).  Both sites share
the same shape: split on newlines, decide
`needsDisclosure := len(lines) > 2 || len(s) > T`, and on disclosure take
either the first two lines or the first `T` characters plus `"..."` as
the preview. -/

/-- `needsDisclosure := len(lines) > 2 || len(content) > maxPreviewLength`. -/
def needsDisclosure (tChars : Nat) (s : Str) : Bool :=
  decide (2 < (splitNl s).length) || decide (tChars < s.length)

/-- The `(preview, remaining)` pair computed in the disclosure branch. -/
def discloseParts (tChars : Nat) (s : Str) : Str × Str :=
  let lines := splitNl s
  if 2 < lines.length then
    (joinNl (lines.take 2), joinNl (lines.drop 2))
  else if tChars < s.length then
    (s.take tChars ++ str "...", s.drop tChars)
  else
    (s, [])

/-- The collapsible wrapper appended after a tool-use preview (line 211). -/
def inputWrap (remaining : Str) : Str :=
  str "\n\n<details>\n<summary>Show more input...</summary>\n\n```json\n" ++
  remaining ++ str "\n```\n\n</details>"

/-- The collapsible wrapper appended after a tool-result preview (line 293). -/
def resWrap (remaining : Str) : Str :=
  str "\n\n<details>\n<summary>Show more...</summary>\n\n```\n" ++
  remaining ++ str "\n```\n\n</details>"

/-- Lines 180–216: the `" with …"` tail appended to a tool-use description
when the serialized input is non-empty and not `"{}"`. -/
def toolUseTail (toolInput : Str) : Str :=
  if needsDisclosure 300 toolInput = false then
    str " with " ++ toolInput
  else
    let p := (discloseParts 300 toolInput).1
    let r := (discloseParts 300 toolInput).2
    if r ≠ [] then str " with " ++ p ++ inputWrap r
    else str " with " ++ p

/-- Lines 257–299: a tool-result body, given the chosen indicator line and
the (non-empty) extracted result content. -/
def toolResultCombined (ind rc : Str) : Str :=
  if needsDisclosure 400 rc = false then
    ind ++ '\n' :: rc
  else
    let p := (discloseParts 400 rc).1
    let r := (discloseParts 400 rc).2
    if r ≠ [] then ind ++ '\n' :: (p ++ resWrap r)
    else ind ++ '\n' :: p

/-! ### Decoded JSON values and `encoding/json` serialization -/

/-- A JSON value as decoded by `json.Unmarshal` into `interface{}`.
Numbers are restricted to integers (Go decodes to `float64`; the program
only ever re-serializes them, and the concrete inputs used below are
integer-valued, where Go prints the plain integer form). Object fields are
kept in a list; Go serializes decoded maps with sorted keys, so lists are
taken in sorted key order. -/
inductive JVal where
  | null : JVal
  | bool : Bool → JVal
  | num : Int → JVal
  | strv : Str → JVal
  | arr : List JVal → JVal
  | obj : List (Str × JVal) → JVal

/-- Lower-case hex digit. -/
def hexDigit (n : Nat) : Char :=
  if n < 10 then Char.ofNat (48 + n) else Char.ofNat (87 + n)

/-- `encoding/json` string escaping (default HTML-escaping encoder). -/
def escChar (c : Char) : Str :=
  if c = '"' then ['\\', '"']
  else if c = '\\' then ['\\', '\\']
  else if c = '\n' then ['\\', 'n']
  else if c = '\r' then ['\\', 'r']
  else if c = '\t' then ['\\', 't']
  else if c = '<' then str "\\u003c"
  else if c = '>' then str "\\u003e"
  else if c = '&' then str "\\u0026"
  else if c.val < 0x20 then
    '\\' :: 'u' :: '0' :: '0' :: [hexDigit (c.toNat / 16 % 16), hexDigit (c.toNat % 16)]
  else if c.val = 0x2028 then str "\\u2028"
  else if c.val = 0x2029 then str "\\u2029"
  else [c]

/-- A JSON string literal. -/
def quoteStr (s : Str) : Str :=
  '"' :: (s.map escChar).foldr (· ++ ·) ['"']

mutual
/-- `json.Marshal` (compact). -/
def jsonMarshal : JVal → Str
  | .null => str "null"
  | .bool true => str "true"
  | .bool false => str "false"
  | .num i => (toString i).data
  | .strv s => quoteStr s
  | .arr vs => '[' :: joinSep [','] (jsonMarshalArr vs) ++ [']']
  | .obj kvs => '\x7b' :: joinSep [','] (jsonMarshalObj kvs) ++ ['\x7d']

def jsonMarshalArr : List JVal → List Str
  | [] => []
  | v :: vs => jsonMarshal v :: jsonMarshalArr vs

def jsonMarshalObj : List (Str × JVal) → List Str
  | [] => []
  | (k, v) :: kvs => (quoteStr k ++ ':' :: jsonMarshal v) :: jsonMarshalObj kvs
end

/-- Newline plus `d` levels of two-space indentation. -/
def nlIndent (d : Nat) : Str := '\n' :: (List.replicate d (str "  ")).foldr (· ++ ·) []

mutual
/-- `json.MarshalIndent(v, "", "  ")` at nesting depth `d`. -/
def marshalIndent (d : Nat) : JVal → Str
  | .null => str "null"
  | .bool true => str "true"
  | .bool false => str "false"
  | .num i => (toString i).data
  | .strv s => quoteStr s
  | .arr vs =>
    match vs with
    | [] => str "[]"
    | _ :: _ => '[' :: joinSep [','] (marshalIndentArr (d + 1) vs) ++ nlIndent d ++ [']']
  | .obj kvs =>
    match kvs with
    | [] => str "\x7b\x7d"
    | _ :: _ => '\x7b' :: joinSep [','] (marshalIndentObj (d + 1) kvs) ++ nlIndent d ++ ['\x7d']

def marshalIndentArr (d : Nat) : List JVal → List Str
  | [] => []
  | v :: vs => (nlIndent d ++ marshalIndent d v) :: marshalIndentArr d vs

def marshalIndentObj (d : Nat) : List (Str × JVal) → List Str
  | [] => []
  | (k, v) :: kvs =>
    (nlIndent d ++ quoteStr k ++ ':' :: ' ' :: marshalIndent d v) :: marshalIndentObj d kvs
end

/-- Top-level `json.MarshalIndent(v, "", "  ")`. -/
def marshalIndent0 (v : JVal) : Str := marshalIndent 0 v

/-! ### Event model (the `Message` struct, source lines 318–345) -/

/-- One nested content item of an assistant/user message.  Only the fields
the program reads are modelled; `input = none` models a `nil` `Input`
(absent or JSON `null`), likewise `content`. -/
structure ContentItem where
  type : Str
  text : Str
  name : Str
  input : Option JVal
  content : Option JVal
  isError : Bool

/-- The nested `message` object. -/
structure MsgBody where
  content : List ContentItem

/-- A decoded streaming message. -/
structure Message where
  type : Str
  subtype : Str
  message : MsgBody
  sessionID : Str
  model : Str

/-- A content item with all fields at their Go zero values. -/
def emptyItem : ContentItem :=
  { type := [], text := [], name := [], input := none, content := none, isError := false }

/-- The "Unknown message type" fallback string (source lines 313 and 619),
used both as display content and as the annotation-suppression sentinel. -/
def sentinel : Str := str "Unknown message type"

/-! ### ANSI color constants (source lines 15–27) -/

def ansiReset : Str := str "\x1b[0m"
def ansiBold : Str := str "\x1b[1m"
def ansiDim : Str := str "\x1b[2m"
def ansiRed : Str := str "\x1b[31m"
def ansiGreen : Str := str "\x1b[32m"
def ansiYellow : Str := str "\x1b[33m"
def ansiBlue : Str := str "\x1b[34m"
def ansiWhite : Str := str "\x1b[37m"
def ansiMagenta : Str := str "\x1b[35m"
def ansiGray : Str := str "\x1b[90m"

/-! ### Content extraction, annotation side
(`extractCleanJSONContentWithErrorCheck`, source lines 152–316)

`gp` models the tool-result re-prettification (source lines 241–249:
`json.Valid` / `Unmarshal` / `MarshalIndent`, identity on non-JSON text).
The single Go loop over content items is transcribed as one pass for the
parts (`List.filterMap`) and one for the error flag (`List.foldl`); the
loop body touches no other state, so the passes commute. -/

/-- Lines 238–255 (identical to renderer lines 580–597): the extracted
tool-result content string. -/
def extractResultContent (gp : Str → Str) (it : ContentItem) : Str :=
  if it.text ≠ [] then gp it.text
  else
    match it.content with
    | some v => marshalIndent0 v
    | none => []

/-- Lines 171–218: the description contributed by one `tool_use` item. -/
def toolUseDescA (name : Str) (input : Option JVal) : Str :=
  let toolInput := match input with | some v => marshalIndent0 v | none => []
  let base := str "🔧 Using tool: " ++ name
  if toolInput ≠ [] ∧ toolInput ≠ ['\x7b', '\x7d'] then base ++ toolUseTail toolInput
  else base

/-- Lines 165–219: the optional part contributed by one assistant item. -/
def asstItemA (it : ContentItem) : Option Str :=
  if it.type = str "text" then
    if it.text ≠ [] then some it.text else none
  else if it.type = str "tool_use" then
    some (toolUseDescA it.name it.input)
  else none

/-- Lines 230–305: the optional part contributed by one user item. -/
def userItemA (gp : Str → Str) (it : ContentItem) : Option Str :=
  if it.type = str "tool_result" then
    let rc := extractResultContent gp it
    if rc ≠ [] then
      some (toolResultCombined
        (if it.isError then str "❌ Tool error:" else str "✅ Tool result:") rc)
    else some (str "✅ Tool result received")
  else if it.text ≠ [] then some it.text else none

/-- Lines 225–235: the error-flag accumulation over a user message's items. -/
def hasErrorOf (items : List ContentItem) : Bool :=
  items.foldl (fun acc it => if it.type = str "tool_result" ∧ it.isError then true else acc) false

/-- `extractCleanJSONContentWithErrorCheck` (lines 152–316): speaker,
clean content and error flag of one decoded message. -/
def extractCleanJSONContentWithErrorCheck (gp : Str → Str) (msg : Message) :
    Str × Str × Bool :=
  if msg.type = str "system" then
    if msg.subtype = str "init" then
      (str "SYSTEM",
       str "Session initialized (ID: " ++ msg.sessionID ++ str ", Model: " ++
         msg.model ++ str ")", false)
    else (str "SYSTEM", str "System message", false)
  else if msg.type = str "assistant" then
    (str "ASSISTANT", joinSep (str "\n\n") (msg.message.content.filterMap asstItemA), false)
  else if msg.type = str "user" then
    (str "USER", joinSep (str "\n\n") (msg.message.content.filterMap (userItemA gp)),
     hasErrorOf msg.message.content)
  else
    (msg.type.map Char.toUpper, sentinel, false)

/-! ### Content formatting, renderer side
(`formatJSONMessage`, source lines 525–623) -/

/-- Lines 544–561: the part contributed by one assistant item (colorized,
compact input serialization, no disclosure). -/
def asstItemR (it : ContentItem) : Option Str :=
  if it.type = str "text" then
    if it.text ≠ [] then some it.text else none
  else if it.type = str "tool_use" then
    let toolInput := match it.input with | some v => jsonMarshal v | none => []
    some (ansiGreen ++ str "🔧 Using tool: " ++ it.name ++
      (if toolInput ≠ [] ∧ toolInput ≠ ['\x7b', '\x7d'] then str " with " ++ toolInput else []) ++
      ansiReset)
  else none

/-- Lines 577–612: the part contributed by one user item (colorized, full
content, no disclosure). -/
def userItemR (gp : Str → Str) (it : ContentItem) : Option Str :=
  if it.type = str "tool_result" then
    let rc := extractResultContent gp it
    if rc ≠ [] then
      some ((if it.isError then ansiRed ++ str "❌ Tool error:" ++ ansiReset
             else ansiMagenta ++ str "✅ Tool result:" ++ ansiReset) ++ '\n' :: rc)
    else some (ansiMagenta ++ str "✅ Tool result received" ++ ansiReset)
  else if it.text ≠ [] then some it.text else none

/-- `formatJSONMessage` (lines 525–623): speaker and rendered content of
one decoded message, as printed to the transcript. -/
def formatJSONMessage (gp : Str → Str) (msg : Message) : Str × Str :=
  if msg.type = str "system" then
    if msg.subtype = str "init" then
      (str "SYSTEM",
       str "Session initialized (ID: " ++ msg.sessionID ++ str ", Model: " ++
         msg.model ++ str ")")
    else (str "SYSTEM", str "System message")
  else if msg.type = str "assistant" then
    (str "ASSISTANT", joinSep (str "\n") (msg.message.content.filterMap asstItemR))
  else if msg.type = str "user" then
    (str "USER", joinSep (str "\n") (msg.message.content.filterMap (userItemR gp)))
  else
    (msg.type.map Char.toUpper, sentinel)

/-! ### Line ingestion and classification (`parseLine`, source lines 488–523) -/

/-- A formatted chat entry (source lines 348–355). -/
structure ChatEntry where
  lineNumber : Nat
  speaker : Str
  content : Str
  timestamp : Str
  isJSON : Bool
  rawLine : Str
deriving DecidableEq

/-- Decimal rendering of a natural number. -/
def natToStr (n : Nat) : Str := (toString n).data

/-- `fmt.Sprintf("%02d", n)` for `n ≥ 0`. -/
def pad2 (n : Nat) : Str := if n < 10 then '0' :: natToStr n else natToStr n

/-- `fmt.Sprintf("%03d", n)` for `n ≥ 0`. -/
def pad3 (n : Nat) : Str :=
  List.replicate (3 - (natToStr n).length) '0' ++ natToStr n

/-- `formatRelativeTime` (source lines 33–43), on whole elapsed seconds. -/
def formatRelativeTime (totalSeconds : Nat) : Str :=
  let hours := totalSeconds / 3600
  let minutes := totalSeconds % 3600 / 60
  let seconds := totalSeconds % 60
  if 0 < hours then pad2 hours ++ ':' :: pad2 minutes ++ ':' :: pad2 seconds
  else pad2 minutes ++ ':' :: pad2 seconds

/-- `parseLine` (lines 488–523).  `u` models `json.Unmarshal` into
`Message`; `counter` is the value of the global `staticLineNum` before the
call and the second component its value after; `elapsed` the elapsed whole
seconds used for the timestamp. -/
def parseLine (u : Str → Option Message) (gp : Str → Str)
    (counter : Nat) (elapsed : Nat) (line : Str) : Option ChatEntry × Nat :=
  let l := trimSpace line
  if l = [] then (none, counter)
  else
    let n := counter + 1
    let ts := formatRelativeTime elapsed
    if startsWithBrace l then
      match u l with
      | some m =>
        let r := formatJSONMessage gp m
        (some ⟨n, r.1, r.2, ts, true, l⟩, n)
      | none => (some ⟨n, str "SYSTEM", l, ts, false, l⟩, n)
    else (some ⟨n, str "SYSTEM", l, ts, false, l⟩, n)

/-! ### Transcript rendering (`printSingleEntry`, source lines 626–666) -/

/-- The lines printed to the transcript for one entry (empty content
prints nothing; a trailing `[]` models the blank spacer line printed after
JSON entries). -/
def renderedLines (e : ChatEntry) : List Str :=
  if e.content = [] then []
  else
    let colors :=
      if e.speaker = str "ASSISTANT" then (ansiGreen ++ ansiBold, ansiGreen)
      else if e.speaker = str "USER" then (ansiBlue ++ ansiBold, ansiBlue)
      else if e.speaker = str "SYSTEM" then (ansiYellow ++ ansiBold, ansiGray)
      else (ansiWhite, ansiWhite)
    let pfx := ansiGray ++ str "[" ++ pad3 e.lineNumber ++ str "] " ++ ansiDim ++
      str "[" ++ e.timestamp ++ str "]" ++ ansiReset ++ str " " ++
      colors.1 ++ e.speaker ++ str ":" ++ ansiReset
    let body :=
      match splitNl e.content with
      | [] => []
      | l0 :: rest =>
        (pfx ++ List.replicate (45 - pfx.length) ' ' ++ str " " ++ colors.2 ++ l0 ++ ansiReset) ::
          rest.map (fun li => colors.2 ++ li ++ ansiReset)
    if e.isJSON then body ++ [[]] else body

/-! ### Annotation emission (`createBuildkiteAnnotation`, source lines 46–149)

`ua` models `json.Unmarshal` into `interface{}` (used for the raw-JSON
disclosure block); `d` in the run functions below models the success of
the external `buildkite-agent annotate` invocation, keyed by line number. -/

/-- One issued annotation request. -/
structure Annot where
  style : Str
  context : Str
  body : Str
deriving DecidableEq

/-- Lines 85–135: the speaker header line, the style, and the assembled
markdown body, given the extracted speaker/content/error flag. -/
def buildAnnot (ua : Str → Option JVal) (l : Str) (n : Nat) (ts sp c : Str)
    (he : Bool) : Annot :=
  let header :=
    if sp = str "ASSISTANT" then (str "🤖 **ASSISTANT**:\n\n", str "info")
    else if sp = str "USER" then
      (str "👤 **USER**:\n\n", if he then str "error" else str "success")
    else if sp = str "SYSTEM" then (str "⚙️ **SYSTEM**:\n\n", str "warning")
    else (str "**" ++ sp ++ str "**:\n\n", str "info")
  let jsonPart :=
    if startsWithBrace l then
      match ua l with
      | some v => marshalIndent0 v
      | none => l
    else l
  { style := header.2,
    context := str "chat-message-" ++ natToStr n,
    body := str "**Message " ++ natToStr n ++ str "** - `" ++ ts ++ str "`\n\n" ++
      header.1 ++ (if c ≠ [] then c else []) ++
      str "\n\n<details>\n<summary>Show JSON</summary>\n\n```json\n" ++
      jsonPart ++ str "\n```\n\n</details>" }

/-- `createBuildkiteAnnotation` (lines 46–149) as the annotation request it
issues: `none` when the function returns without invoking the sink (blank
line, or content equal to the `sentinel`). -/
def annotFor (u : Str → Option Message) (ua : Str → Option JVal) (gp : Str → Str)
    (raw : Str) (n : Nat) (ts : Str) : Option Annot :=
  let l := trimSpace raw
  if l = [] then none
  else
    let parsed : Option (Str × Str × Bool) :=
      if startsWithBrace l then
        match u l with
        | some m =>
          let r := extractCleanJSONContentWithErrorCheck gp m
          if r.2.1 = sentinel then none else some r
        | none => some (str "SYSTEM", l, false)
      else some (str "SYSTEM", l, false)
    match parsed with
    | none => none
    | some (sp, c, he) => some (buildAnnot ua l n ts sp c he)

/-! ### The streaming loops (source lines 443–486) -/

/-- Observable outcome of a run: the classified entries in order, the
transcript lines printed, the annotation requests issued (keyed by line
number), and the line numbers whose annotation delivery failed and was
logged as a warning. -/
structure RunOut where
  entries : List ChatEntry
  printed : List Str
  annots : List (Nat × Annot)
  warned : List Nat
deriving DecidableEq

/-- `parseAndStreamOutput` (lines 443–456).  `d n` models whether the
`buildkite-agent` invocation for line number `n` succeeds; `times i` the
elapsed seconds when raw line `i` arrives; `i`/`c` the raw-line index and
the `staticLineNum` counter. -/
def runS (u : Str → Option Message) (ua : Str → Option JVal) (gp : Str → Str)
    (d : Nat → Bool) (times : Nat → Nat) : Nat → Nat → List Str → RunOut
  | _, _, [] => ⟨[], [], [], []⟩
  | i, c, line :: rest =>
    match parseLine u gp c (times i) line with
    | (none, c') => runS u ua gp d times (i + 1) c' rest
    | (some e, c') =>
      let tail := runS u ua gp d times (i + 1) c' rest
      let ann := annotFor u ua gp line e.lineNumber e.timestamp
      { entries := e :: tail.entries,
        printed := renderedLines e ++ tail.printed,
        annots := (match ann with | some a => [(e.lineNumber, a)] | none => []) ++ tail.annots,
        warned := (match ann with
                   | some _ => if d e.lineNumber then [] else [e.lineNumber]
                   | none => []) ++ tail.warned }

/-- Outcome of a run with file capture. -/
structure RunFileOut where
  captured : List Str
  out : RunOut
deriving DecidableEq

/-- `parseAndStreamOutputWithFile` (lines 459–486): every raw line is
written to the capture file (`captured`) before being parsed, then handled
exactly as in `parseAndStreamOutput`. -/
def runFileS (u : Str → Option Message) (ua : Str → Option JVal) (gp : Str → Str)
    (d : Nat → Bool) (times : Nat → Nat) : Nat → Nat → List Str → RunFileOut
  | _, _, [] => ⟨[], ⟨[], [], [], []⟩⟩
  | i, c, line :: rest =>
    match parseLine u gp c (times i) line with
    | (none, c') =>
      let r := runFileS u ua gp d times (i + 1) c' rest
      ⟨line :: r.captured, r.out⟩
    | (some e, c') =>
      let r := runFileS u ua gp d times (i + 1) c' rest
      let ann := annotFor u ua gp line e.lineNumber e.timestamp
      ⟨line :: r.captured,
       { entries := e :: r.out.entries,
         printed := renderedLines e ++ r.out.printed,
         annots := (match ann with | some a => [(e.lineNumber, a)] | none => []) ++ r.out.annots,
         warned := (match ann with
                    | some _ => if d e.lineNumber then [] else [e.lineNumber]
                    | none => []) ++ r.out.warned }⟩

/-! ### The common formatting schema

`extractCleanJSONContentWithErrorCheck` and `formatJSONMessage` were
written as two separate functions in the source.  The schema below captures
their common structure; the claim C3 theorems show each is an instance of
it, with the style record isolating exactly where the two outputs differ. -/

/-- The presentation parameters distinguishing the two formatters. -/
structure FmtStyle where
  sep : Str
  serIn : Option JVal → Str
  toolPre : Str
  toolPost : Str
  wTail : Str → Str
  errInd : Str
  okInd : Str
  resCombine : Str → Str → Str
  resPlaceholder : Str

/-- Schema: the part contributed by one assistant item. -/
def genItemAsst (st : FmtStyle) (it : ContentItem) : Option Str :=
  if it.type = str "text" then
    if it.text ≠ [] then some it.text else none
  else if it.type = str "tool_use" then
    let ti := st.serIn it.input
    some (st.toolPre ++ str "🔧 Using tool: " ++ it.name ++
      (if ti ≠ [] ∧ ti ≠ ['\x7b', '\x7d'] then st.wTail ti else []) ++ st.toolPost)
  else none

/-- Schema: the part contributed by one user item. -/
def genItemUser (st : FmtStyle) (gp : Str → Str) (it : ContentItem) : Option Str :=
  if it.type = str "tool_result" then
    let rc := extractResultContent gp it
    if rc ≠ [] then
      some (st.resCombine (if it.isError then st.errInd else st.okInd) rc)
    else some st.resPlaceholder
  else if it.text ≠ [] then some it.text else none

/-- Schema: speaker and content of one decoded message. -/
def genericFormat (st : FmtStyle) (gp : Str → Str) (msg : Message) : Str × Str :=
  if msg.type = str "system" then
    if msg.subtype = str "init" then
      (str "SYSTEM",
       str "Session initialized (ID: " ++ msg.sessionID ++ str ", Model: " ++
         msg.model ++ str ")")
    else (str "SYSTEM", str "System message")
  else if msg.type = str "assistant" then
    (str "ASSISTANT", joinSep st.sep (msg.message.content.filterMap (genItemAsst st)))
  else if msg.type = str "user" then
    (str "USER", joinSep st.sep (msg.message.content.filterMap (genItemUser st gp)))
  else
    (msg.type.map Char.toUpper, sentinel)

/-- The renderer's presentation: single-newline separator, compact input
serialization, ANSI coloring, full inline content. -/
def rendStyle : FmtStyle :=
  { sep := str "\n",
    serIn := fun i => match i with | some v => jsonMarshal v | none => [],
    toolPre := ansiGreen,
    toolPost := ansiReset,
    wTail := fun ti => str " with " ++ ti,
    errInd := ansiRed ++ str "❌ Tool error:" ++ ansiReset,
    okInd := ansiMagenta ++ str "✅ Tool result:" ++ ansiReset,
    resCombine := fun ind rc => ind ++ '\n' :: rc,
    resPlaceholder := ansiMagenta ++ str "✅ Tool result received" ++ ansiReset }

/-- The annotation emitter's presentation: blank-line separator, indented
input serialization, no coloring, progressive disclosure. -/
def annotStyle : FmtStyle :=
  { sep := str "\n\n",
    serIn := fun i => match i with | some v => marshalIndent0 v | none => [],
    toolPre := [],
    toolPost := [],
    wTail := toolUseTail,
    errInd := str "❌ Tool error:",
    okInd := str "✅ Tool result:",
    resCombine := toolResultCombined,
    resPlaceholder := str "✅ Tool result received" }

/-! ### Concrete instances of the external-library parameters

Used by the concrete-input theorems below.  `gpId` is the prettifier's
behavior on every string that is not valid JSON (the only case exercised
by the concrete inputs); the table decoders record what `json.Unmarshal`
produces on the specific concrete lines used. -/

def gpId : Str → Str := fun s => s
def uNone : Str → Option Message := fun _ => none
def uaNone : Str → Option JVal := fun _ => none
def dAll : Nat → Bool := fun _ => true
def times0 : Nat → Nat := fun _ => 0

/-- The concrete input line `{"type":"assistant"}`. -/
def rawC4 : Str := str "\x7b\"type\":\"assistant\"\x7d"

/-- What `json.Unmarshal` produces for `rawC4`: an assistant message with
no content items (all other fields at zero values). -/
def msgC4 : Message :=
  { type := str "assistant", subtype := [], message := ⟨[]⟩, sessionID := [], model := [] }

def uC4 : Str → Option Message := fun l => if l = rawC4 then some msgC4 else none

def uaC4 : Str → Option JVal :=
  fun l => if l = rawC4 then some (.obj [(str "type", .strv (str "assistant"))]) else none

/-- A `tool_result` item with `is_error = true` and neither `text` nor
`content` (as decoded from
`{"type":"tool_result","is_error":true}`). -/
def itemC2 : ContentItem := { emptyItem with type := str "tool_result", isError := true }

/-- A user message whose only item is `itemC2`. -/
def msgC2 : Message :=
  { type := str "user", subtype := [], message := ⟨[itemC2]⟩, sessionID := [], model := [] }

/-- 310 `x` characters: a tool-use input value whose JSON serialization is
a single 312-character line. -/
def xs310 : Str := List.replicate 310 'x'

/-- A `tool_use` item, tool name `T`, whose `input` decoded to the string
`xs310`. -/
def itemC3 : ContentItem :=
  { type := str "tool_use", text := [], name := str "T",
    input := some (.strv xs310), content := none, isError := false }

/-- An assistant message with `itemC3` as its only content item. -/
def msgC3 : Message :=
  { type := str "assistant", subtype := [],
    message := ⟨[itemC3]⟩,
    sessionID := [], model := [] }

/-- The concrete input line `{"type":"result"}` (an unrecognized kind). -/
def rawC5 : Str := str "\x7b\"type\":\"result\"\x7d"

/-- What `json.Unmarshal` produces for `rawC5`. -/
def msgC5 : Message :=
  { type := str "result", subtype := [], message := ⟨[]⟩, sessionID := [], model := [] }

def uC5 : Str → Option Message := fun l => if l = rawC5 then some msgC5 else none

/-! ## Helper lemmas -/

theorem splitNl_ne_nil (s : Str) : splitNl s ≠ [] := by
  induction s with
  | nil => simp [splitNl]
  | cons c s ih =>
    simp only [splitNl]
    cases hs : splitNl s with
    | nil => simp
    | cons p ps => by_cases hc : c = '\n' <;> simp [hc]

theorem joinNl_splitNl (s : Str) : joinNl (splitNl s) = s := by
  induction s with
  | nil => rfl
  | cons c s ih =>
    cases hs : splitNl s with
    | nil => exact absurd hs (splitNl_ne_nil s)
    | cons p ps =>
      rw [hs] at ih
      simp only [splitNl, hs]
      by_cases hc : c = '\n'
      · subst hc
        simp only [if_pos rfl, joinNl]
        simpa using ih
      · rw [if_neg hc]
        cases ps with
        | nil =>
          simp only [joinNl] at ih ⊢
          rw [ih]
        | cons q qs =>
          simp only [joinNl] at ih ⊢
          rw [← ih]
          simp

theorem joinNl_append (a b : List Str) (ha : a ≠ []) (hb : b ≠ []) :
    joinNl (a ++ b) = joinNl a ++ '\n' :: joinNl b := by
  induction a with
  | nil => exact absurd rfl ha
  | cons x a' ih =>
    cases a' with
    | nil =>
      cases b with
      | nil => exact absurd rfl hb
      | cons y ys => simp [joinNl]
    | cons x' a'' =>
      have h := ih (by simp)
      simp only [List.cons_append] at h ⊢
      simp only [joinNl, h, List.append_assoc, List.cons_append]

theorem splitNl_reconstruct (s : Str) (h : 2 < (splitNl s).length) :
    joinNl ((splitNl s).take 2) ++ '\n' :: joinNl ((splitNl s).drop 2) = s := by
  have h1 : (splitNl s).take 2 ≠ [] := by
    have hl : ((splitNl s).take 2).length = 2 := by
      rw [List.length_take]; omega
    intro hx
    rw [hx] at hl
    simp at hl
  have h2 : (splitNl s).drop 2 ≠ [] := by
    have hl : ((splitNl s).drop 2).length = (splitNl s).length - 2 :=
      List.length_drop 2 (splitNl s)
    intro hx
    rw [hx] at hl
    simp at hl
    omega
  calc joinNl ((splitNl s).take 2) ++ '\n' :: joinNl ((splitNl s).drop 2)
      = joinNl ((splitNl s).take 2 ++ (splitNl s).drop 2) :=
        (joinNl_append _ _ h1 h2).symm
    _ = joinNl (splitNl s) := by rw [List.take_append_drop]
    _ = s := joinNl_splitNl s

theorem parseLine_blank (u : Str → Option Message) (gp : Str → Str) (c t : Nat)
    (l : Str) (h : trimSpace l = []) : parseLine u gp c t l = (none, c) := by
  simp [parseLine, h]

theorem parseLine_nonblank (u : Str → Option Message) (gp : Str → Str) (c t : Nat)
    (l : Str) (h : trimSpace l ≠ []) :
    ∃ e : ChatEntry, parseLine u gp c t l = (some e, c + 1) ∧ e.lineNumber = c + 1 := by
  simp only [parseLine, if_neg h]
  by_cases hb : startsWithBrace (trimSpace l)
  · rw [if_pos hb]
    cases hu : u (trimSpace l) with
    | some m => exact ⟨_, rfl, rfl⟩
    | none => exact ⟨_, rfl, rfl⟩
  · rw [if_neg hb]
    exact ⟨_, rfl, rfl⟩

theorem foldl_errFlag (items : List ContentItem) :
    ∀ acc : Bool,
      (items.foldl
        (fun acc it => if it.type = str "tool_result" ∧ it.isError then true else acc) acc
        = true)
      ↔ (acc = true ∨ ∃ it ∈ items, it.type = str "tool_result" ∧ it.isError = true) := by
  induction items with
  | nil => simp
  | cons x xs ih =>
    intro acc
    simp only [List.foldl_cons]
    by_cases hx : x.type = str "tool_result" ∧ x.isError
    · rw [if_pos hx, ih true]
      simp only [true_or, true_iff]
      exact Or.inr ⟨x, by simp, hx.1, hx.2⟩
    · rw [if_neg hx, ih acc]
      constructor
      · rintro (h | ⟨it, hmem, hit⟩)
        · exact Or.inl h
        · exact Or.inr ⟨it, List.mem_cons_of_mem x hmem, hit⟩
      · rintro (h | ⟨it, hmem, hit⟩)
        · exact Or.inl h
        · rcases List.mem_cons.mp hmem with rfl | hmem'
          · exact absurd ⟨hit.1, hit.2⟩ hx
          · exact Or.inr ⟨it, hmem', hit⟩

theorem hasErrorOf_iff (items : List ContentItem) :
    hasErrorOf items = true ↔
      ∃ it ∈ items, it.type = str "tool_result" ∧ it.isError = true := by
  unfold hasErrorOf
  rw [foldl_errFlag items false]
  simp

theorem runS_entries_lineNumbers (u : Str → Option Message) (ua : Str → Option JVal)
    (gp : Str → Str) (d : Nat → Bool) (times : Nat → Nat) :
    ∀ (ls : List Str) (i c : Nat),
      (runS u ua gp d times i c ls).entries.map (fun e => e.lineNumber)
        = List.range' (c + 1) (ls.countP fun l => !(trimSpace l).isEmpty) := by
  intro ls
  induction ls with
  | nil => intro i c; rfl
  | cons l rest ih =>
    intro i c
    by_cases h : trimSpace l = []
    · have hp : (!(trimSpace l).isEmpty) = false := by simp [h]
      simp only [runS, parseLine_blank u gp c (times i) l h, List.countP_cons, hp,
        if_false, Nat.add_zero]
      exact ih (i + 1) c
    · obtain ⟨e, he, hn⟩ := parseLine_nonblank u gp c (times i) l h
      have hp : (!(trimSpace l).isEmpty) = true := by simp [h]
      simp only [runS, he, List.countP_cons, hp, if_true, List.map_cons, hn]
      rw [ih (i + 1) (c + 1)]
      rw [List.range'_succ]

theorem runS_d_eq (u : Str → Option Message) (ua : Str → Option JVal) (gp : Str → Str)
    (times : Nat → Nat) (d₁ d₂ : Nat → Bool) :
    ∀ (ls : List Str) (i c : Nat),
      (runS u ua gp d₁ times i c ls).entries = (runS u ua gp d₂ times i c ls).entries ∧
      (runS u ua gp d₁ times i c ls).printed = (runS u ua gp d₂ times i c ls).printed ∧
      (runS u ua gp d₁ times i c ls).annots = (runS u ua gp d₂ times i c ls).annots := by
  intro ls
  induction ls with
  | nil => intro i c; exact ⟨rfl, rfl, rfl⟩
  | cons l rest ih =>
    intro i c
    cases hp : parseLine u gp c (times i) l with
    | mk oe c' =>
      cases oe with
      | none =>
        simp only [runS, hp]
        exact ih (i + 1) c'
      | some e =>
        obtain ⟨h1, h2, h3⟩ := ih (i + 1) c'
        simp only [runS, hp]
        exact ⟨by rw [h1], by rw [h2], by rw [h3]⟩

theorem runS_warned_spec (u : Str → Option Message) (ua : Str → Option JVal)
    (gp : Str → Str) (d : Nat → Bool) (times : Nat → Nat) :
    ∀ (ls : List Str) (i c : Nat),
      (runS u ua gp d times i c ls).warned
        = (runS u ua gp d times i c ls).annots.filterMap
            (fun p => if d p.1 then none else some p.1) := by
  intro ls
  induction ls with
  | nil => intro i c; rfl
  | cons l rest ih =>
    intro i c
    cases hp : parseLine u gp c (times i) l with
    | mk oe c' =>
      cases oe with
      | none =>
        simp only [runS, hp]
        exact ih (i + 1) c'
      | some e =>
        simp only [runS, hp, List.filterMap_append]
        rw [← ih (i + 1) c']
        cases hann : annotFor u ua gp l e.lineNumber e.timestamp with
        | none => simp
        | some a =>
          by_cases hd : d e.lineNumber <;> simp [List.filterMap, hd]

theorem runFileS_spec (u : Str → Option Message) (ua : Str → Option JVal)
    (gp : Str → Str) (d : Nat → Bool) (times : Nat → Nat) :
    ∀ (ls : List Str) (i c : Nat),
      (runFileS u ua gp d times i c ls).captured = ls ∧
      (runFileS u ua gp d times i c ls).out = runS u ua gp d times i c ls := by
  intro ls
  induction ls with
  | nil => intro i c; exact ⟨rfl, rfl⟩
  | cons l rest ih =>
    intro i c
    cases hp : parseLine u gp c (times i) l with
    | mk oe c' =>
      obtain ⟨h1, h2⟩ := ih (i + 1) c'
      cases oe with
      | none =>
        simp only [runFileS, runS, hp]
        exact ⟨by rw [h1], h2⟩
      | some e =>
        simp only [runFileS, runS, hp]
        exact ⟨by rw [h1], by rw [h2]⟩

theorem asstItemR_eq : asstItemR = genItemAsst rendStyle := by
  funext it
  rfl

theorem userItemR_eq (gp : Str → Str) : userItemR gp = genItemUser rendStyle gp := by
  funext it
  rfl

theorem asstItemA_eq : asstItemA = genItemAsst annotStyle := by
  funext it
  simp only [asstItemA, genItemAsst, annotStyle, toolUseDescA]
  by_cases h1 : it.type = str "text"
  · simp [h1]
  · by_cases h2 : it.type = str "tool_use"
    · simp only [if_neg h1, if_pos h2]
      by_cases h3 :
          (match it.input with | some v => marshalIndent0 v | none => []) ≠ [] ∧
          (match it.input with | some v => marshalIndent0 v | none => []) ≠ ['\x7b', '\x7d']
      · simp [if_pos h3, List.append_assoc]
      · simp [if_neg h3]
    · simp [h1, h2]

theorem userItemA_eq (gp : Str → Str) : userItemA gp = genItemUser annotStyle gp := by
  funext it
  rfl

theorem genericFormat_fst (st₁ st₂ : FmtStyle) (gp : Str → Str) (msg : Message) :
    (genericFormat st₁ gp msg).1 = (genericFormat st₂ gp msg).1 := by
  unfold genericFormat
  split_ifs <;> rfl

theorem formatJSONMessage_generic (gp : Str → Str) (msg : Message) :
    formatJSONMessage gp msg = genericFormat rendStyle gp msg := by
  unfold formatJSONMessage genericFormat
  rw [asstItemR_eq, userItemR_eq gp]
  rfl

theorem extractClean_generic (gp : Str → Str) (msg : Message) :
    ((extractCleanJSONContentWithErrorCheck gp msg).1,
     (extractCleanJSONContentWithErrorCheck gp msg).2.1)
      = genericFormat annotStyle gp msg := by
  unfold extractCleanJSONContentWithErrorCheck genericFormat
  rw [asstItemA_eq, userItemA_eq gp]
  split_ifs <;> rfl

theorem toolResultCombined_head (ind rc : Str) :
    ∃ t : Str, toolResultCombined ind rc = ind ++ t := by
  by_cases h : needsDisclosure 400 rc = false
  · exact ⟨'\n' :: rc, by simp [toolResultCombined, h]⟩
  · by_cases hr : (discloseParts 400 rc).2 ≠ []
    · exact ⟨'\n' :: ((discloseParts 400 rc).1 ++ resWrap (discloseParts 400 rc).2),
        by simp [toolResultCombined, h, hr]⟩
    · exact ⟨'\n' :: (discloseParts 400 rc).1, by simp [toolResultCombined, h, hr]⟩

theorem renderedLines_ne_nil (e : ChatEntry) (h : e.content ≠ []) :
    renderedLines e ≠ [] := by
  unfold renderedLines
  rw [if_neg h]
  cases hsp : splitNl e.content with
  | nil => exact absurd hsp (splitNl_ne_nil _)
  | cons l0 rest =>
    simp only [hsp]
    split_ifs <;> simp

/-! ## Claim theorems -/

/-- Claim C1, counterexample.  The candidate string `"a\nb\n"` splits into
three lines, so it is in the disclosure branch of the tool-result
formatter (threshold 400); the claim then demands a preview plus a
remainder in a collapsible block, but the code computes an empty remainder
(the third split part is empty) and emits the preview with no collapsible
block at all — and the trailing newline of the candidate appears nowhere
in the emitted text. -/
theorem claim_C1_cex :
    needsDisclosure 400 (str "a\nb\n") = true ∧
    2 < (splitNl (str "a\nb\n")).length ∧
    (discloseParts 400 (str "a\nb\n")).2 = [] ∧
    toolResultCombined (str "✅ Tool result:") (str "a\nb\n")
      = str "✅ Tool result:\na\nb" ∧
    hasSub (toolResultCombined (str "✅ Tool result:") (str "a\nb\n"))
      (str "<details>") = false := by
  exact ⟨by decide, by decide, by decide, by decide, by decide⟩

/-- Claim C1 (amended): the formatter emits the candidate inline with no
disclosure wrapper iff its split-line count is at most 2 and its length is
at most the character threshold; otherwise the preview is the first two
lines (when more than two) or the first `T_chars` characters plus an
ellipsis marker, and preview plus remainder — accounting for the newline
at the split point, resp. minus the ellipsis marker — reproduce the
original exactly; the remainder is wrapped in a collapsible block **when
it is non-empty**, and when it is empty only the preview is emitted. -/
theorem claim_C1_amended (tChars : Nat) (s : Str) :
    (needsDisclosure tChars s = false ↔
      (splitNl s).length ≤ 2 ∧ s.length ≤ tChars) ∧
    (2 < (splitNl s).length →
      (discloseParts tChars s).1 = joinNl ((splitNl s).take 2) ∧
      (discloseParts tChars s).1 ++ '\n' :: (discloseParts tChars s).2 = s) ∧
    ((splitNl s).length ≤ 2 → tChars < s.length →
      (discloseParts tChars s).1 = s.take tChars ++ str "..." ∧
      s.take tChars ++ (discloseParts tChars s).2 = s ∧
      (discloseParts tChars s).2 ≠ []) ∧
    (∀ ind : Str,
      (needsDisclosure 400 s = false →
        toolResultCombined ind s = ind ++ '\n' :: s) ∧
      (needsDisclosure 400 s = true → (discloseParts 400 s).2 ≠ [] →
        toolResultCombined ind s
          = ind ++ '\n' :: ((discloseParts 400 s).1 ++ resWrap (discloseParts 400 s).2)) ∧
      (needsDisclosure 400 s = true → (discloseParts 400 s).2 = [] →
        toolResultCombined ind s = ind ++ '\n' :: (discloseParts 400 s).1)) ∧
    (needsDisclosure 300 s = false → toolUseTail s = str " with " ++ s) ∧
    (needsDisclosure 300 s = true → (discloseParts 300 s).2 ≠ [] →
      toolUseTail s
        = str " with " ++ (discloseParts 300 s).1 ++ inputWrap (discloseParts 300 s).2) ∧
    (needsDisclosure 300 s = true → (discloseParts 300 s).2 = [] →
      toolUseTail s = str " with " ++ (discloseParts 300 s).1) := by
  refine ⟨?_, ?_, ?_, ?_, ?_, ?_, ?_⟩
  · simp [needsDisclosure, Nat.not_lt]
  · intro h
    constructor
    · simp [discloseParts, if_pos h]
    · simp only [discloseParts, if_pos h]
      exact splitNl_reconstruct s h
  · intro h1 h2
    have hn : ¬ 2 < (splitNl s).length := Nat.not_lt.mpr h1
    refine ⟨by simp [discloseParts, hn, h2], ?_, ?_⟩
    · simp only [discloseParts, if_neg hn, if_pos h2]
      exact List.take_append_drop tChars s
    · simp only [discloseParts, if_neg hn, if_pos h2]
      have : (s.drop tChars).length = s.length - tChars := List.length_drop tChars s
      intro hx
      rw [hx] at this
      simp at this
      omega
  · intro ind
    refine ⟨?_, ?_, ?_⟩
    · intro h; simp [toolResultCombined, h]
    · intro h hr; simp [toolResultCombined, h, hr]
    · intro h hr; simp [toolResultCombined, h, hr]
  · intro h; simp [toolUseTail, h]
  · intro h hr
    simp [toolUseTail, h, hr, List.append_assoc]
  · intro h hr; simp [toolUseTail, h, hr]

/-- Witness for the amended claim C1, at concrete inputs: a three-line
result is reassembled from preview and remainder; a short result is inline;
a long single line is truncated at the threshold and reassembled; the
empty-remainder case emits only the preview. -/
theorem claim_C1_amended_wit :
    (2 < (splitNl (str "l1\nl2\nl3")).length ∧
      (discloseParts 400 (str "l1\nl2\nl3")).1 ++
        '\n' :: (discloseParts 400 (str "l1\nl2\nl3")).2 = str "l1\nl2\nl3") ∧
    (needsDisclosure 400 (str "ok") = false ∧
      toolResultCombined (str "I:") (str "ok") = str "I:" ++ '\n' :: str "ok") ∧
    ((splitNl (str "abc")).length ≤ 2 ∧ 2 < (str "abc").length ∧
      (str "abc").take 2 ++ (discloseParts 2 (str "abc")).2 = str "abc") ∧
    (needsDisclosure 300 (str "a\nb\n") = true ∧ (discloseParts 300 (str "a\nb\n")).2 = [] ∧
      toolUseTail (str "a\nb\n") = str " with " ++ (discloseParts 300 (str "a\nb\n")).1) := by
  refine ⟨⟨by decide, ?_⟩, ⟨by decide, ?_⟩, ⟨by decide, by decide, ?_⟩, ⟨by decide, by decide, ?_⟩⟩
  · exact ((claim_C1_amended 400 (str "l1\nl2\nl3")).2.1 (by decide)).2
  · exact ((claim_C1_amended 400 (str "ok")).2.2.2.1 (str "I:")).1 (by decide)
  · exact ((claim_C1_amended 2 (str "abc")).2.2.1 (by decide) (by decide)).2.1
  · exact (claim_C1_amended 300 (str "a\nb\n")).2.2.2.2.2.2 (by decide) (by decide)

/-- Claim C2, counterexample.  The user message `msgC2` holds one
`tool_result` item with `isError = true` but no text and no content; the
entry's flag is set, yet the item contributes the placeholder
`"✅ Tool result received"` — the normal indicator, not the distinct error
indicator demanded by the claim. -/
theorem claim_C2_cex :
    (extractCleanJSONContentWithErrorCheck gpId msgC2).2.2 = true ∧
    (extractCleanJSONContentWithErrorCheck gpId msgC2).2.1 = str "✅ Tool result received" ∧
    hasSub (extractCleanJSONContentWithErrorCheck gpId msgC2).2.1 (str "❌") = false := by
  exact ⟨by decide, by decide, by decide⟩

/-- Claim C2 (amended): for every classified message, `hasError` is true
iff the message's kind is user and at least one `tool_result` item has
`isError = true` (never for other kinds); every errored `tool_result` item
**whose extracted result content is non-empty** contributes content headed
by the distinct error indicator, while an errored item with empty result
content contributes the fixed received-placeholder with the normal
indicator. -/
theorem claim_C2_amended (gp : Str → Str) (msg : Message) :
    ((extractCleanJSONContentWithErrorCheck gp msg).2.2 = true ↔
      msg.type = str "user" ∧
        ∃ it ∈ msg.message.content, it.type = str "tool_result" ∧ it.isError = true) ∧
    (∀ it : ContentItem, it.type = str "tool_result" → it.isError = true →
      extractResultContent gp it ≠ [] →
      ∃ rest : Str, userItemA gp it = some (str "❌ Tool error:" ++ rest)) ∧
    (∀ it : ContentItem, it.type = str "tool_result" → it.isError = true →
      extractResultContent gp it = [] →
      userItemA gp it = some (str "✅ Tool result received")) := by
  refine ⟨?_, ?_, ?_⟩
  · by_cases hu : msg.type = str "user"
    · have hs : ¬ msg.type = str "system" := by rw [hu]; decide
      have ha : ¬ msg.type = str "assistant" := by rw [hu]; decide
      simp only [extractCleanJSONContentWithErrorCheck, if_neg hs, if_neg ha, if_pos hu]
      rw [hasErrorOf_iff]
      simp [hu]
    · unfold extractCleanJSONContentWithErrorCheck
      split_ifs <;> simp_all
  · intro it h1 h2 h3
    have hitem : userItemA gp it
        = some (toolResultCombined (str "❌ Tool error:") (extractResultContent gp it)) := by
      simp [userItemA, h1, h3, h2]
    rw [hitem]
    obtain ⟨t, ht⟩ := toolResultCombined_head (str "❌ Tool error:") (extractResultContent gp it)
    exact ⟨t, by rw [ht]⟩
  · intro it h1 h2 h3
    simp [userItemA, h1, h3]

/-- Witness for the amended claim C2, at concrete items: an errored item
with text `"boom"` gets the error indicator; the errored empty item
`itemC2` gets the placeholder; and `msgC2` satisfies the flag
characterization. -/
theorem claim_C2_amended_wit :
    (extractResultContent gpId ⟨str "tool_result", str "boom", [], none, none, true⟩ ≠ [] ∧
      ∃ rest : Str,
        userItemA gpId ⟨str "tool_result", str "boom", [], none, none, true⟩
          = some (str "❌ Tool error:" ++ rest)) ∧
    (extractResultContent gpId itemC2 = [] ∧
      userItemA gpId itemC2 = some (str "✅ Tool result received")) ∧
    ((extractCleanJSONContentWithErrorCheck gpId msgC2).2.2 = true ↔
      msgC2.type = str "user" ∧
        ∃ it ∈ msgC2.message.content, it.type = str "tool_result" ∧ it.isError = true) := by
  refine ⟨⟨by decide, ?_⟩, ⟨by decide, ?_⟩, ?_⟩
  · exact (claim_C2_amended gpId msgC2).2.1 _ (by decide) (by decide) (by decide)
  · exact (claim_C2_amended gpId msgC2).2.2 itemC2 (by decide) (by decide) (by decide)
  · exact (claim_C2_amended gpId msgC2).1

/-- Claim C3, counterexample.  For the assistant message `msgC3` (one
`tool_use` item whose input serializes to a single 312-character line,
above every threshold): the annotation body truncates the candidate and
carries a collapsible block, while the renderer body contains the full
serialization inline and no collapsible block — the renderer never applies
the progressive-disclosure formatter, contradicting the claim that both
outputs apply it. -/
theorem claim_C3_cex :
    needsDisclosure 300 (jsonMarshal (.strv xs310)) = true ∧
    hasSub (extractCleanJSONContentWithErrorCheck gpId msgC3).2.1 (str "<details>") = true ∧
    hasSub (formatJSONMessage gpId msgC3).2 (str "<details>") = false ∧
    hasSub (formatJSONMessage gpId msgC3).2 (jsonMarshal (.strv xs310)) = true ∧
    hasSub (extractCleanJSONContentWithErrorCheck gpId msgC3).2.1 (jsonMarshal (.strv xs310)) = false := by
  exact ⟨by decide, by decide, by decide, by decide, by decide⟩

/-- Claim C3 (amended): the two outputs agree on the speaker and are
instances of one common content schema over the same ordered item
traversal, identical selection, and identical result-content extraction;
they differ in presentation only as isolated by the two style records —
ANSI styling, item separator (newline vs. blank line), tool-input
serialization (compact vs. indented), and the fact that only the
annotation side applies the progressive-disclosure rule (the renderer
emits content in full). -/
theorem claim_C3_amended (gp : Str → Str) (msg : Message) :
    formatJSONMessage gp msg = genericFormat rendStyle gp msg ∧
    ((extractCleanJSONContentWithErrorCheck gp msg).1,
     (extractCleanJSONContentWithErrorCheck gp msg).2.1)
      = genericFormat annotStyle gp msg ∧
    (formatJSONMessage gp msg).1 = (extractCleanJSONContentWithErrorCheck gp msg).1 := by
  refine ⟨formatJSONMessage_generic gp msg, extractClean_generic gp msg, ?_⟩
  calc (formatJSONMessage gp msg).1
      = (genericFormat rendStyle gp msg).1 := by rw [formatJSONMessage_generic]
    _ = (genericFormat annotStyle gp msg).1 := genericFormat_fst _ _ _ _
    _ = (extractCleanJSONContentWithErrorCheck gp msg).1 := by
        rw [← extractClean_generic gp msg]

/-- Claim C4, counterexample.  The line `{"type":"assistant"}` classifies
to an entry with empty content: nothing is printed to the transcript, but
— contrary to the claim — an annotation report IS produced for the line. -/
theorem claim_C4_cex :
    (runS uC4 uaC4 gpId dAll times0 0 0 [rawC4]).printed = [] ∧
    (runS uC4 uaC4 gpId dAll times0 0 0 [rawC4]).entries.map (fun e => e.content) = [[]] ∧
    (runS uC4 uaC4 gpId dAll times0 0 0 [rawC4]).annots.length = 1 := by
  exact ⟨by decide, by decide, by decide⟩

/-- Claim C4 (amended): an entry whose classified content is empty prints
nothing to the transcript; the annotation emitter, however, still runs for
such a line and issues a report — it skips only blank raw lines and
JSON events whose extracted content equals the unknown-type sentinel. -/
theorem claim_C4_amended (u : Str → Option Message) (ua : Str → Option JVal)
    (gp : Str → Str) :
    (∀ e : ChatEntry, e.content = [] → renderedLines e = []) ∧
    (∀ (raw : Str) (n : Nat) (ts : Str) (m : Message),
      startsWithBrace (trimSpace raw) = true →
      u (trimSpace raw) = some m →
      (extractCleanJSONContentWithErrorCheck gp m).2.1 ≠ sentinel →
      (annotFor u ua gp raw n ts).isSome = true) := by
  constructor
  · intro e h
    simp [renderedLines, h]
  · intro raw n ts m hb hu hs
    have hne : trimSpace raw ≠ [] := by
      intro hx
      rw [hx] at hb
      simp [startsWithBrace] at hb
    simp [annotFor, hne, hb, hu, hs]

/-- Witness for the amended claim C4, at the concrete line
`{"type":"assistant"}`: empty content prints nothing, yet the annotation
for the line exists. -/
theorem claim_C4_amended_wit :
    renderedLines ⟨1, str "ASSISTANT", [], str "00:00", true, rawC4⟩ = [] ∧
    startsWithBrace (trimSpace rawC4) = true ∧
    uC4 (trimSpace rawC4) = some msgC4 ∧
    (extractCleanJSONContentWithErrorCheck gpId msgC4).2.1 ≠ sentinel ∧
    (annotFor uC4 uaC4 gpId rawC4 1 (str "00:00")).isSome = true := by
  refine ⟨?_, by decide, rfl, by decide, ?_⟩
  · exact (claim_C4_amended uC4 uaC4 gpId).1 _ rfl
  · exact (claim_C4_amended uC4 uaC4 gpId).2 rawC4 1 (str "00:00") msgC4
      (by decide) rfl (by decide)

/-- Claim C5, counterexample.  The plain-text line
`Unknown message type` classifies to an entry whose content equals the
sentinel literal, yet the annotation emitter does NOT suppress it — the
suppression check only runs for lines that parse as JSON objects. -/
theorem claim_C5_cex :
    (parseLine uNone gpId 0 0 sentinel).1
      = some ⟨1, str "SYSTEM", sentinel, str "00:00", false, sentinel⟩ ∧
    (annotFor uNone uaNone gpId sentinel 1 (str "00:00")).isSome = true := by
  exact ⟨by decide, by decide⟩

/-- Claim C5 (amended): the annotation emitter skips a line exactly when
it is blank after trimming, or it starts with `{`, unmarshals, and the
extractor's content equals the sentinel literal.  In particular every
unknown-kind event is suppressed (its extracted content is always the
sentinel) while still, having non-empty content, appearing in the primary
transcript; but a non-JSON plain-text line equal to the literal is NOT
suppressed. -/
theorem claim_C5_amended (u : Str → Option Message) (ua : Str → Option JVal)
    (gp : Str → Str) (raw : Str) (n : Nat) (ts : Str) :
    (annotFor u ua gp raw n ts = none ↔
      trimSpace raw = [] ∨
        (startsWithBrace (trimSpace raw) = true ∧
          ∃ m, u (trimSpace raw) = some m ∧
            (extractCleanJSONContentWithErrorCheck gp m).2.1 = sentinel)) ∧
    (∀ m : Message, m.type ≠ str "system" → m.type ≠ str "assistant" →
      m.type ≠ str "user" →
      (extractCleanJSONContentWithErrorCheck gp m).2.1 = sentinel) ∧
    (∀ e : ChatEntry, e.content = sentinel → renderedLines e ≠ []) := by
  refine ⟨?_, ?_, ?_⟩
  · by_cases he : trimSpace raw = []
    · simp [annotFor, he]
    · by_cases hb : startsWithBrace (trimSpace raw) = true
      · cases hu : u (trimSpace raw) with
        | none => simp [annotFor, he, hb, hu]
        | some m =>
          by_cases hs : (extractCleanJSONContentWithErrorCheck gp m).2.1 = sentinel
          · simp [annotFor, he, hb, hu, hs]
          · simp only [annotFor, if_neg he, if_pos hb, hu]
            simp [hs, he]
      · simp [annotFor, he, hb]
  · intro m h1 h2 h3
    simp [extractCleanJSONContentWithErrorCheck, h1, h2, h3]
  · intro e h
    exact renderedLines_ne_nil e (by rw [h]; decide)

/-- Witness for the amended claim C5, at the concrete line
`{"type":"result"}` (an unrecognized kind): its extracted content is the
sentinel, the annotation is suppressed, and its transcript entry still
prints. -/
theorem claim_C5_amended_wit :
    annotFor uC5 uaNone gpId rawC5 1 (str "00:00") = none ∧
    (extractCleanJSONContentWithErrorCheck gpId msgC5).2.1 = sentinel ∧
    renderedLines ⟨1, str "RESULT", sentinel, str "00:00", true, trimSpace rawC5⟩ ≠ [] := by
  refine ⟨?_, ?_, ?_⟩
  · exact (claim_C5_amended uC5 uaNone gpId rawC5 1 (str "00:00")).1.mpr
      (Or.inr ⟨by decide, msgC5, rfl, by decide⟩)
  · exact (claim_C5_amended uC5 uaNone gpId rawC5 1 (str "00:00")).2.1 msgC5
      (by decide) (by decide) (by decide)
  · exact (claim_C5_amended uC5 uaNone gpId rawC5 1 (str "00:00")).2.2 _ rfl

/-- Claim C6: the `lineNumber` values of the entries emitted by a run are
exactly `counter+1, counter+2, …`, one per input line that is non-blank
after trimming (so `1, 2, …` from the initial state), regardless of JSON
validity; a line that is blank after trimming produces no entry and leaves
the counter unchanged. -/
theorem claim_C6_thm (u : Str → Option Message) (ua : Str → Option JVal)
    (gp : Str → Str) (d : Nat → Bool) (times : Nat → Nat) (i c : Nat)
    (ls : List Str) :
    (runS u ua gp d times i c ls).entries.map (fun e => e.lineNumber)
      = List.range' (c + 1) (ls.countP fun l => !(trimSpace l).isEmpty) ∧
    (∀ (l : Str) (c' t' : Nat), trimSpace l = [] →
      parseLine u gp c' t' l = (none, c')) := by
  exact ⟨runS_entries_lineNumbers u ua gp d times ls i c,
    fun l c' t' h => parseLine_blank u gp c' t' l h⟩

/-- Witness for claim C6, on the concrete input
`["hello", "   ", "{bad", "x"]` (a plain line, a blank line, an invalid
JSON line, a plain line): entries are numbered 1, 2, 3 and the blank line
leaves the counter untouched. -/
theorem claim_C6_wit :
    ([str "hello", str "   ", str "\x7bbad", str "x"].countP
      fun l => !(trimSpace l).isEmpty) = 3 ∧
    (runS uNone uaNone gpId dAll times0 0 0
        [str "hello", str "   ", str "\x7bbad", str "x"]).entries.map
        (fun e => e.lineNumber)
      = List.range' 1
          ([str "hello", str "   ", str "\x7bbad", str "x"].countP
            fun l => !(trimSpace l).isEmpty) ∧
    parseLine uNone gpId 5 7 (str "   ") = (none, 5) := by
  refine ⟨by decide, ?_, ?_⟩
  · exact (claim_C6_thm uNone uaNone gpId dAll times0 0 0 _).1
  · exact (claim_C6_thm uNone uaNone gpId dAll times0 0 0
      [str "hello", str "   ", str "\x7bbad", str "x"]).2 (str "   ") 5 7 (by decide)

/-- Claim C7: a line that is non-empty after trimming and does not
unmarshal as a `Message` (whether or not it starts with `{`) yields an
entry with speaker SYSTEM, `wasJSON = false` and content equal to the
(trimmed) raw text, with the counter advanced; the entry is printed, never
silently dropped. -/
theorem claim_C7_thm (u : Str → Option Message) (gp : Str → Str) (c t : Nat)
    (raw : Str)
    (h1 : trimSpace raw ≠ [])
    (h2 : startsWithBrace (trimSpace raw) = true → u (trimSpace raw) = none) :
    parseLine u gp c t raw
      = (some ⟨c + 1, str "SYSTEM", trimSpace raw, formatRelativeTime t, false,
          trimSpace raw⟩, c + 1) ∧
    renderedLines ⟨c + 1, str "SYSTEM", trimSpace raw, formatRelativeTime t, false,
      trimSpace raw⟩ ≠ [] := by
  constructor
  · simp only [parseLine, if_neg h1]
    by_cases hb : startsWithBrace (trimSpace raw) = true
    · rw [if_pos hb, h2 hb]
    · rw [if_neg hb]
  · exact renderedLines_ne_nil _ h1

/-- Witness for claim C7, at the concrete non-JSON line
`" not json at all "`. -/
theorem claim_C7_wit :
    trimSpace (str " not json at all ") ≠ [] ∧
    parseLine uNone gpId 0 0 (str " not json at all ")
      = (some ⟨1, str "SYSTEM", str "not json at all", formatRelativeTime 0, false,
          str "not json at all"⟩, 1) := by
  refine ⟨by decide, ?_⟩
  have ht : trimSpace (str " not json at all ") = str "not json at all" := by decide
  have h := (claim_C7_thm uNone gpId 0 0 (str " not json at all ")
    (by decide) (fun _ => rfl)).1
  rw [ht] at h
  exact h

/-- Claim C8: with file capture enabled, every raw input line — including
blank lines and lines yielding no entry — is appended to the capture list
exactly once, in arrival order, before parsing; and the captured run's
entries, transcript, annotations and warnings are identical to the run
without capture. -/
theorem claim_C8_thm (u : Str → Option Message) (ua : Str → Option JVal)
    (gp : Str → Str) (d : Nat → Bool) (times : Nat → Nat) (i c : Nat)
    (ls : List Str) :
    (runFileS u ua gp d times i c ls).captured = ls ∧
    (runFileS u ua gp d times i c ls).out = runS u ua gp d times i c ls :=
  runFileS_spec u ua gp d times ls i c

/-- Claim C9: the entries, transcript output and annotation requests of a
run are identical under any two delivery oracles — a sink failure never
alters the transcript or any subsequent line's processing — and the warned
line numbers are exactly the annotated line numbers whose delivery
failed. -/
theorem claim_C9_thm (u : Str → Option Message) (ua : Str → Option JVal)
    (gp : Str → Str) (times : Nat → Nat) (d₁ d₂ : Nat → Bool) (i c : Nat)
    (ls : List Str) :
    (runS u ua gp d₁ times i c ls).entries = (runS u ua gp d₂ times i c ls).entries ∧
    (runS u ua gp d₁ times i c ls).printed = (runS u ua gp d₂ times i c ls).printed ∧
    (runS u ua gp d₁ times i c ls).annots = (runS u ua gp d₂ times i c ls).annots ∧
    (runS u ua gp d₁ times i c ls).warned
      = (runS u ua gp d₁ times i c ls).annots.filterMap
          (fun p => if d₁ p.1 then none else some p.1) := by
  obtain ⟨h1, h2, h3⟩ := runS_d_eq u ua gp times d₁ d₂ ls i c
  exact ⟨h1, h2, h3, runS_warned_spec u ua gp d₁ times ls i c⟩

/-- Claim C10: a trimmed non-empty line that does not begin with `{` never
reaches the JSON decoder — the entry (speaker SYSTEM, `wasJSON = false`,
content the trimmed text) and the annotation are independent of the
decoders, and the annotation is the SYSTEM-styled (`warning`) report for
the plain text. -/
theorem claim_C10_thm (u u' : Str → Option Message) (ua ua' : Str → Option JVal)
    (gp : Str → Str) (c t n : Nat) (ts : Str) (raw : Str)
    (h1 : trimSpace raw ≠ [])
    (h2 : startsWithBrace (trimSpace raw) = false) :
    parseLine u gp c t raw
      = (some ⟨c + 1, str "SYSTEM", trimSpace raw, formatRelativeTime t, false,
          trimSpace raw⟩, c + 1) ∧
    parseLine u gp c t raw = parseLine u' gp c t raw ∧
    annotFor u ua gp raw n ts = annotFor u' ua' gp raw n ts ∧
    annotFor u ua gp raw n ts
      = some (buildAnnot ua (trimSpace raw) n ts (str "SYSTEM") (trimSpace raw) false) ∧
    (buildAnnot ua (trimSpace raw) n ts (str "SYSTEM") (trimSpace raw) false).style
      = str "warning" := by
  have hb : ¬ startsWithBrace (trimSpace raw) = true := by simp [h2]
  have hbuild : ∀ w w' : Str → Option JVal,
      buildAnnot w (trimSpace raw) n ts (str "SYSTEM") (trimSpace raw) false
        = buildAnnot w' (trimSpace raw) n ts (str "SYSTEM") (trimSpace raw) false := by
    intro w w'
    unfold buildAnnot
    rw [if_neg hb, if_neg hb]
  have hone : ∀ (v : Str → Option Message) (w : Str → Option JVal),
      annotFor v w gp raw n ts
        = some (buildAnnot w (trimSpace raw) n ts (str "SYSTEM") (trimSpace raw) false) := by
    intro v w
    simp only [annotFor, if_neg h1, if_neg hb]
  refine ⟨?_, ?_, ?_, hone u ua, ?_⟩
  · simp only [parseLine, if_neg h1]
    rw [if_neg hb]
  · simp only [parseLine, if_neg h1]
    rw [if_neg hb, if_neg hb]
  · rw [hone u ua, hone u' ua']
    rw [hbuild ua ua']
  · unfold buildAnnot
    rw [if_neg (by decide : ¬ str "SYSTEM" = str "ASSISTANT"),
      if_neg (by decide : ¬ str "SYSTEM" = str "USER"),
      if_pos (rfl : str "SYSTEM" = str "SYSTEM")]

/-- Witness for claim C10, at the concrete line `[1, 2]` — valid JSON, but
not an object: classification and annotation ignore the decoders (two
different decoder tables give identical results) and the annotation style
is `warning`. -/
theorem claim_C10_wit :
    trimSpace (str "[1, 2]") ≠ [] ∧
    startsWithBrace (trimSpace (str "[1, 2]")) = false ∧
    parseLine uNone gpId 0 0 (str "[1, 2]")
      = (some ⟨1, str "SYSTEM", str "[1, 2]", formatRelativeTime 0, false,
          str "[1, 2]"⟩, 1) ∧
    parseLine uNone gpId 0 0 (str "[1, 2]") = parseLine uC4 gpId 0 0 (str "[1, 2]") ∧
    (buildAnnot uaNone (trimSpace (str "[1, 2]")) 1 (str "00:00") (str "SYSTEM")
      (trimSpace (str "[1, 2]")) false).style = str "warning" := by
  have h := claim_C10_thm uNone uC4 uaNone uaC4 gpId 0 0 1 (str "00:00")
    (str "[1, 2]") (by decide) (by decide)
  have ht : trimSpace (str "[1, 2]") = str "[1, 2]" := by decide
  refine ⟨by decide, by decide, ?_, h.2.1, h.2.2.2.2⟩
  rw [h.1, ht]

end ChatParser
